import Mathlib

/-
Verification development for the sharepoint-connector repository.

Strings are modelled as `List Char`.  Each definition in this file is a
shallow embedding of a function of the package `sharepoint_scraper`
(files `scraper.py`, `auth.py`, `utils.py`); the source file and function
are named in each doc comment.  Network effects are modelled by passing
the remote server's answers as explicit arguments, and the observable
side effects of a run (HTTP calls, sleeps) are returned as an event list.
-/

namespace SPC

/-- The reserved character set of `SharePointScraper._sanitize_filename`
(`scraper.py:439`): `invalid_chars = '<>:"/\\|?*'`. -/
def invalidChars : List Char := "<>:\"/\\|?*".toList

/-- One step of Python `str.replace(char, '_')` for a single character:
every occurrence of `c` is replaced by `r`. -/
def replaceChar (c r : Char) (s : List Char) : List Char :=
  s.map (fun x => if x = c then r else x)

/-- `scraper.py:442-443`: `for char in invalid_chars: sanitized = sanitized.replace(char, '_')`. -/
def removeInvalid (s : List Char) : List Char :=
  invalidChars.foldl (fun acc c => replaceChar c '_' acc) s

/-- Membership test of Python `str.strip('. ')`'s strip set. -/
def isDotOrSpace (c : Char) : Bool := c = '.' || c = ' '

/-- Python `str.strip('. ')` (`scraper.py:446`): remove leading and trailing
characters drawn from the set {`.`, ` `}. -/
def pyStrip (s : List Char) : List Char :=
  ((s.dropWhile isDotOrSpace).reverse.dropWhile isDotOrSpace).reverse

/-- Index of the last `.` in the string, if any (CPython `genericpath._splitext`
with no path separator present: `p.rfind(extsep)`). -/
def lastDotIdx (s : List Char) : Option Nat :=
  ((List.range s.length).filter (fun i => s.getD i ' ' = '.')).getLast?

/-- CPython `os.path.splitext` restricted to strings without path separators
(the sanitizer's input has had `/` and `\` replaced already): split at the last
dot, unless every character before that dot is itself a dot (leading-dot
filenames such as `.bashrc` have no extension). -/
def splitext (s : List Char) : List Char × List Char :=
  match lastDotIdx s with
  | none => (s, [])
  | some i => if (s.take i).all (fun c => c = '.') then (s, []) else (s.take i, s.drop i)

/-- Python slice `s[:k]` for an `Int` bound `k`: nonnegative `k` keeps the
first `k` characters, negative `k` drops the last `-k` characters. -/
def pySliceTo (s : List Char) (k : Int) : List Char :=
  if 0 ≤ k then s.take k.toNat else s.take (s.length - (-k).toNat)

/-- The sentinel of `_sanitize_filename` (`scraper.py:436`). -/
def unknownFile : List Char := "unknown_file".toList

/-- `SharePointScraper._sanitize_filename` (`scraper.py:433-455`):
replace reserved characters by `_`, strip leading/trailing dots and spaces,
fall back to `'unknown_file'` when empty, and when longer than 200 characters
truncate the stem via `name[:200-len(ext)] + ext`. -/
def sanitize_filename (filename : List Char) : List Char :=
  if filename = [] then unknownFile
  else
    let sanitized := pyStrip (removeInvalid filename)
    if sanitized = [] then unknownFile
    else if 200 < sanitized.length then
      let ne := splitext sanitized
      pySliceTo ne.1 ((200 : Int) - (ne.2.length : Int)) ++ ne.2
    else sanitized

/-! ## JSON values and the metadata snapshot (`utils.py`) -/

/-- A parsed JSON value as Python's `json.load` produces it (`dict` keys are
distinct after parsing; integers model the snapshot's numeric fields). -/
inductive JVal where
  | null : JVal
  | bool (b : Bool) : JVal
  | num (n : Int) : JVal
  | str (s : List Char) : JVal
  | arr (xs : List JVal) : JVal
  | obj (fields : List (List Char × JVal)) : JVal

/-- Python `dict` lookup on a parsed JSON object (keys are distinct, so the
first match is the only match). -/
def jlookup (fields : List (List Char × JVal)) (k : List Char) : Option JVal :=
  (fields.find? (fun p => decide (p.1 = k))).map (fun p => p.2)

def timestampKey : List Char := "timestamp".toList

def totalDocumentsKey : List Char := "total_documents".toList

def documentsKey : List Char := "documents".toList

/-- `save_documents_metadata` (`utils.py:56-78`): the JSON value written to the
output file — an object with `timestamp`, `total_documents` and `documents`
keys.  `json.dump` followed by `json.load` is the identity on such values, so
the file is modelled by the value itself. -/
def save_documents_metadata (timestamp : List Char) (documents : List JVal) : JVal :=
  JVal.obj
    [(timestampKey, JVal.str timestamp),
     (totalDocumentsKey, JVal.num documents.length),
     (documentsKey, JVal.arr documents)]

/-- `load_documents_metadata` (`utils.py:81-104`).  The argument is the result
of `open` + `json.load`: `none` models a missing/unreadable file or invalid
JSON (the raised exception).  A dict with a `documents` key returns that key's
value; a bare array returns itself; everything else raises `ValueError`.  All
exceptions are caught and produce the empty list (`return []`). -/
def load_documents_metadata (j : Option JVal) : JVal :=
  match j with
  | some (JVal.obj fields) =>
      match jlookup fields documentsKey with
      | some v => v
      | none => JVal.arr []
  | some (JVal.arr xs) => JVal.arr xs
  | some _ => JVal.arr []
  | none => JVal.arr []

/-- Input states in which `load_documents_metadata`'s claim C10 demands the
empty list: missing/unreadable/unparsable file, an object without a
`documents` key, or JSON that is neither such an object nor an array. -/
def isBadMetaInput (j : Option JVal) : Bool :=
  match j with
  | none => true
  | some (JVal.obj fields) => (jlookup fields documentsKey).isNone
  | some (JVal.arr _) => false
  | some _ => true

/-! ## Token exchange (`auth.py`) -/

/-- A reply of the token endpoint: HTTP status plus parsed body (`none` when
the body is not parseable JSON). -/
structure HttpResp where
  status : Nat
  body : Option JVal

def accessTokenKey : List Char := "access_token".toList

/-- `SharePointAuth._exchange_code_for_token` (`auth.py:177-229`), reduced to
its observable outcome: on HTTP 200 the parsed body's `access_token` entry is
stored and `True` is returned; on any other status the error is only logged
and `False` is returned; any exception (missing key, unparsable body) is
caught and also yields `False`.  The returned option is the stored token. -/
def exchange_code_for_token (resp : HttpResp) : Option JVal :=
  if resp.status = 200 then
    match resp.body with
    | some (JVal.obj fields) => jlookup fields accessTokenKey
    | _ => none
  else none

/-- The fixed message of the `AuthenticationError` raised at `auth.py:161-162`. -/
def authExchangeFailedMsg : List Char :=
  "Failed to exchange authorization code for token".toList

/-- The tail of `SharePointAuth.authenticate` (`auth.py:160-165`): when
`_exchange_code_for_token` returns `False`, raise
`AuthenticationError("Failed to exchange authorization code for token")`;
otherwise return the stored access token. -/
def authenticate_token_step (resp : HttpResp) : Except (List Char) JVal :=
  match exchange_code_for_token resp with
  | some t => Except.ok t
  | none => Except.error authExchangeFailedMsg

/-! ## Observable events of a run -/

/-- Observable operations performed by the scraper: the drives listing call,
a children listing call for one folder, a download GET, and `time.sleep`. -/
inductive Ev where
  | listDrives : Ev
  | listChildren (driveId : List Char) (path : List Char) : Ev
  | httpGet : Ev
  | sleep (seconds : Nat) : Ev
deriving DecidableEq

def isSleepEv : Ev → Bool
  | Ev.sleep _ => true
  | _ => false

def isChildrenListEv : Ev → Bool
  | Ev.listChildren _ _ => true
  | _ => false

/-! ## Download retry (`scraper.py:298-324`) -/

/-- The outcome of one GET attempt against the download URL: an HTTP status,
or a network failure (`requests.RequestException`). -/
inductive Outcome where
  | status (code : Nat) : Outcome
  | netErr : Outcome

/-- The retry loop of `SharePointScraper.download_document`
(`scraper.py:299-324`), iterating `attempt` over `range(max_retries)` with
`remaining` iterations left.  Status 200 writes the file and returns the path
(`true`); any other status raises `DownloadError`, which is not a
`requests.RequestException`, escapes the loop and is caught by the outer
handler, which returns `None` (`false`).  A `requests.RequestException` on the
last attempt raises `DownloadError` (same outer handler); earlier ones sleep
`2 ** attempt` seconds and retry. -/
def downloadGo (resp : Nat → Outcome) (attempt : Nat) : Nat → List Ev × Bool
  | 0 => ([], false)
  | remaining + 1 =>
      match resp attempt with
      | Outcome.status s =>
          if s = 200 then ([Ev.httpGet], true) else ([Ev.httpGet], false)
      | Outcome.netErr =>
          if remaining = 0 then ([Ev.httpGet], false)
          else
            let r := downloadGo resp (attempt + 1) remaining
            (Ev.httpGet :: Ev.sleep (2 ^ attempt) :: r.1, r.2)

/-- `SharePointScraper.download_document` (`scraper.py:260-330`) restricted to
its retry behaviour: `max_retries = 3`, starting at attempt 0.  `resp n` is
the server's answer to the `n`-th GET.  The Bool is `true` iff a path is
returned (`false` models the `return None` of the outer exception handler). -/
def download_document (resp : Nat → Outcome) : List Ev × Bool :=
  downloadGo resp 0 3

/-- The mock server of the spec's retry test: 500 on the first two attempts,
then 200. -/
def respFiveHundredTwiceThenOk : Nat → Outcome := fun n =>
  if n < 2 then Outcome.status 500 else Outcome.status 200

/-! ## Tree enumeration (`scraper.py:158-258`) -/

/-- The remote fields of one file item, as read by `_scan_drive_recursive`
(`scraper.py:227-241`). -/
structure FileMeta where
  name : List Char
  id : List Char
  size : Nat
  created : Option (List Char)
  modified : Option (List Char)
  downloadUrl : Option (List Char)
  webUrl : Option (List Char)
  mimeType : Option (List Char)
deriving DecidableEq

/-- One entry of a children listing: a file or a folder with its own children.
The tree is the remote drive's state; each folder node's children are what the
server returns for that folder's listing call (one page, no pagination). -/
inductive Item where
  | file (meta : FileMeta) : Item
  | folder (name : List Char) (children : List Item) : Item

/-- The document-metadata record built at `scraper.py:227-241`. -/
structure Doc where
  name : List Char
  safe_name : List Char
  id : List Char
  unique_id : List Char
  drive_id : List Char
  library : List Char
  path : List Char
  size : Nat
  created : Option (List Char)
  modified : Option (List Char)
  download_url : Option (List Char)
  web_url : Option (List Char)
  mime_type : List Char
deriving DecidableEq

def defaultMime : List Char := "application/octet-stream".toList

/-- Construction of one document record (`scraper.py:227-243`). -/
def mkDoc (driveId libraryName folderPath : List Char) (m : FileMeta) : Doc :=
  { name := m.name
    safe_name := sanitize_filename m.name
    id := m.id
    unique_id := m.id
    drive_id := driveId
    library := libraryName
    path := folderPath
    size := m.size
    created := m.created
    modified := m.modified
    download_url := m.downloadUrl
    web_url := m.webUrl
    mime_type := m.mimeType.getD defaultMime }

/-- `scraper.py:247`: `new_path = f"{folder_path}/{folder_name}" if folder_path else folder_name`. -/
def joinPath (p nm : List Char) : List Char :=
  if p = [] then nm else p ++ '/' :: nm

/-- The body of `_scan_drive_recursive` after a successful (HTTP 200) children
listing (`scraper.py:221-250`): iterate over the returned items in order; a
file appends its document record; a folder performs a recursive call, whose
listing call answers non-200 exactly when `(driveId, subfolder path)` is in
`fail` — then a warning is logged and that subtree yields nothing
(`scraper.py:217-219`).  Returns the events of all listing calls made by the
nested recursive calls, and the documents appended, in order. -/
def scanItemsT (fail : List (List Char × List Char)) (driveId libraryName path : List Char)
    (items : List Item) : List Ev × List Doc :=
  match items with
  | [] => ([], [])
  | Item.file m :: rest =>
      let r := scanItemsT fail driveId libraryName path rest
      (r.1, mkDoc driveId libraryName path m :: r.2)
  | Item.folder nm sub :: rest =>
      let np := joinPath path nm
      let c :=
        if (driveId, np) ∈ fail then ([Ev.listChildren driveId np], ([] : List Doc))
        else
          let rs := scanItemsT fail driveId libraryName np sub
          (Ev.listChildren driveId np :: rs.1, rs.2)
      let r := scanItemsT fail driveId libraryName path rest
      (c.1 ++ r.1, c.2 ++ r.2)
termination_by sizeOf items
decreasing_by
  all_goals simp_wf
  all_goals omega

/-- One call of `_scan_drive_recursive` (`scraper.py:203-258`): perform the
children listing call for `path`; on non-200 (`(driveId, path) ∈ fail`) log a
warning and return nothing; on 200 process the returned items. -/
def scanCallT (fail : List (List Char × List Char)) (driveId libraryName path : List Char)
    (children : List Item) : List Ev × List Doc :=
  if (driveId, path) ∈ fail then ([Ev.listChildren driveId path], [])
  else
    let r := scanItemsT fail driveId libraryName path children
    (Ev.listChildren driveId path :: r.1, r.2)

/-- One drive (document library) as the drives listing returns it:
`name`, `id`, and the tree under its root. -/
structure Drive where
  name : List Char
  id : List Char
  root : List Item

/-- `SharePointScraper.get_documents` (`scraper.py:158-201`) with its trace:
list the drives (status `drivesStatus`; non-200 raises `APIError`, which the
outer handler rewraps and re-raises as `SharePointError` — modelled as
`Except.error` carrying the failing status); on 200, scan each drive from its
root (`folder_path = ''`) in order, accumulating documents. -/
def get_documentsT (drivesStatus : Nat) (drives : List Drive)
    (fail : List (List Char × List Char)) : List Ev × Except Nat (List Doc) :=
  if drivesStatus = 200 then
    let per := drives.map (fun d => scanCallT fail d.id d.name [] d.root)
    (Ev.listDrives :: (per.map (fun r => r.1)).foldr (fun a b => a ++ b) [],
     Except.ok ((per.map (fun r => r.2)).foldr (fun a b => a ++ b) []))
  else ([Ev.listDrives], Except.error drivesStatus)

/-- The value returned (or error raised) by `get_documents`. -/
def get_documents (drivesStatus : Nat) (drives : List Drive)
    (fail : List (List Char × List Char)) : Except Nat (List Doc) :=
  (get_documentsT drivesStatus drives fail).2

/-! ## Specification-side enumeration (for the failure-semantics claim):
these two definitions follow the spec's words, not the source, and are
compared with the source embedding. -/

/-- Spec side: the tree left after "a non-200 response while listing a folder
... abandons that subtree": every folder whose own listing fails keeps its
node but loses its entire contents. -/
def pruneFailedSpec (fail : List (List Char × List Char)) (driveId path : List Char)
    (items : List Item) : List Item :=
  match items with
  | [] => []
  | Item.file m :: rest => Item.file m :: pruneFailedSpec fail driveId path rest
  | Item.folder nm sub :: rest =>
      let np := joinPath path nm
      Item.folder nm
          (if (driveId, np) ∈ fail then [] else pruneFailedSpec fail driveId np sub)
        :: pruneFailedSpec fail driveId path rest
termination_by sizeOf items
decreasing_by
  all_goals simp_wf
  all_goals omega

/-- Spec side: the flat collection of every file's descriptor in a tree, with
no folder skipped (the spec's "recursively lists all files under all folders"). -/
def collectFilesSpec (driveId libraryName path : List Char) (items : List Item) : List Doc :=
  match items with
  | [] => []
  | Item.file m :: rest => mkDoc driveId libraryName path m :: collectFilesSpec driveId libraryName path rest
  | Item.folder nm sub :: rest =>
      collectFilesSpec driveId libraryName (joinPath path nm) sub
        ++ collectFilesSpec driveId libraryName path rest
termination_by sizeOf items
decreasing_by
  all_goals simp_wf
  all_goals omega

/-! ## Bulk download (`scraper.py:366-397`) -/

/-- Python `dict` assignment `results[name] = path`: overwrite in place when
the key exists, otherwise append. -/
def dictInsert (m : List (List Char × List Char)) (k v : List Char) :
    List (List Char × List Char) :=
  if k ∈ m.map (fun p => p.1) then m.map (fun p => if p.1 = k then (k, v) else p)
  else m ++ [(k, v)]

/-- The loop of `SharePointScraper.bulk_download` (`scraper.py:382-395`) over
the remaining documents, with `i` items already processed: each document is
downloaded (`dl` gives `download_document`'s outcome — exceptions are caught
and count as failures), a success stores its path under the document's name,
and the progress callback is invoked with `(i + 1, total)` after every
document.  Returns the final mapping and the list of callback invocations. -/
def bulkGo (dl : Doc → Option (List Char)) (total : Nat) :
    List Doc → Nat → List (List Char × List Char) →
      List (List Char × List Char) × List (Nat × Nat)
  | [], _, m => (m, [])
  | d :: rest, i, m =>
      let m1 :=
        match dl d with
        | some p => dictInsert m d.name p
        | none => m
      let r := bulkGo dl total rest (i + 1) m1
      (r.1, (i + 1, total) :: r.2)

/-- `SharePointScraper.bulk_download` (`scraper.py:366-397`): mapping of
document names to local paths for the successful downloads, plus the
progress-callback invocation list. -/
def bulk_download (dl : Doc → Option (List Char)) (documents : List Doc) :
    List (List Char × List Char) × List (Nat × Nat) :=
  bulkGo dl documents.length documents 0 []

/-! ## Concrete inputs used by counterexamples and witnesses -/

def startsWithUnderscore : List Char → Bool
  | [] => false
  | c :: _ => c = '_'

/-- The spec's reserved folder names: a name starting with an underscore, or
the system folder name `Forms`. -/
def reservedFolderName (nm : List Char) : Bool :=
  startsWithUnderscore nm || decide (nm = "Forms".toList)

/-- Spec side ("a non-200 response while listing drives is fatal" aside): the
documents one drive contributes — nothing when its root listing fails,
otherwise every file of the failure-pruned tree. -/
def enumerateDriveSpec (fail : List (List Char × List Char)) (d : Drive) : List Doc :=
  if (d.id, ([] : List Char)) ∈ fail then []
  else collectFilesSpec d.id d.name [] (pruneFailedSpec fail d.id [] d.root)

/-- A filename whose extension is longer than 200 characters: `a.` followed by
300 `b`s. -/
def longExtInput : List Char := "a.".toList ++ List.replicate 300 'b'

/-- A 202-character extension-less filename whose 200-character truncation
ends in a space: 199 `a`s, a space, then `bb`. -/
def spaceCutInput : List Char := List.replicate 199 'a' ++ " bb".toList

/-- A long filename with a short extension: 201 `a`s then `.txt`. -/
def longNameInput : List Char := List.replicate 201 'a' ++ ".txt".toList

/-- A file entry used by the enumeration counterexamples. -/
def sampleMeta : FileMeta :=
  { name := "doc.txt".toList
    id := "id1".toList
    size := 7
    created := none
    modified := none
    downloadUrl := none
    webUrl := none
    mimeType := none }

/-- A drive whose only root entry is a folder named `Forms` containing one file. -/
def formsDrive : Drive :=
  { name := "Documents".toList
    id := "d1".toList
    root := [Item.folder ("Forms".toList) [Item.file sampleMeta]] }

/-- A drive with two empty root folders (three listing calls, no files). -/
def twoFoldersDrive : Drive :=
  { name := "Documents".toList
    id := "d1".toList
    root := [Item.folder ("A".toList) [], Item.folder ("B".toList) []] }

/-! # Theorems -/

/-! ## Helper lemmas about the filename sanitizer -/

theorem replaceChar_not_mem (c r : Char) (s : List Char) (h : ¬ c ∈ s) :
    replaceChar c r s = s := by
  induction s with
  | nil => rfl
  | cons a t ih =>
      simp only [List.mem_cons, not_or] at h
      simp only [replaceChar, List.map_cons] at ih ⊢
      rw [if_neg (fun e => h.1 e.symm), ih h.2]

theorem mem_foldRep (cs : List Char) (s : List Char) (x : Char)
    (hx : x ∈ cs.foldl (fun acc c => replaceChar c '_' acc) s) :
    x = '_' ∨ (x ∈ s ∧ ¬ x ∈ cs) := by
  induction cs generalizing s with
  | nil => exact Or.inr ⟨by simpa using hx, by simp⟩
  | cons c cs ih =>
      rw [List.foldl_cons] at hx
      rcases ih (replaceChar c '_' s) hx with h | ⟨hm, hn⟩
      · exact Or.inl h
      · rcases List.mem_map.mp hm with ⟨y, hy, hf⟩
        by_cases hyc : y = c
        · left
          rw [← hf, if_pos hyc]
        · right
          have hxy : y = x := by simpa [if_neg hyc] using hf
          subst hxy
          simp only [List.mem_cons, not_or]
          exact ⟨hy, hyc, hn⟩

theorem foldRep_eq_self (cs : List Char) (s : List Char) (h : ∀ x ∈ s, ¬ x ∈ cs) :
    cs.foldl (fun acc c => replaceChar c '_' acc) s = s := by
  induction cs with
  | nil => rfl
  | cons c cs ih =>
      rw [List.foldl_cons,
        replaceChar_not_mem c '_' s (fun hc => h c hc (List.mem_cons_self c cs)),
        ih (fun x hx hmem => h x hx (List.mem_cons_of_mem c hmem))]

theorem pyStrip_subset (s : List Char) (x : Char) (hx : x ∈ pyStrip s) : x ∈ s := by
  simp only [pyStrip, List.mem_reverse] at hx
  exact ((List.dropWhile_suffix isDotOrSpace).subset
    (by simpa using (List.dropWhile_suffix isDotOrSpace).subset hx))

theorem mem_strip_removeInvalid (s : List Char) (x : Char)
    (hx : x ∈ pyStrip (removeInvalid s)) : ¬ x ∈ invalidChars := by
  rcases mem_foldRep invalidChars s x (pyStrip_subset _ x hx) with h | ⟨_, hn⟩
  · subst h; decide
  · exact hn

theorem splitext_append (s : List Char) : (splitext s).1 ++ (splitext s).2 = s := by
  rcases h : lastDotIdx s with _ | i
  · simp [splitext, h]
  · simp only [splitext, h]
    split
    · simp
    · exact List.take_append_drop i s

theorem splitext_length (s : List Char) :
    (splitext s).1.length + (splitext s).2.length = s.length := by
  conv_rhs => rw [← splitext_append s]
  rw [List.length_append]

theorem pySliceTo_subset (s : List Char) (k : Int) (x : Char)
    (hx : x ∈ pySliceTo s k) : x ∈ s := by
  unfold pySliceTo at hx
  split at hx
  · exact List.take_subset _ s hx
  · exact List.take_subset _ s hx

theorem mem_sanitize_filename (s : List Char) (x : Char)
    (hx : x ∈ sanitize_filename s) : ¬ x ∈ invalidChars := by
  have hunk : ∀ y ∈ unknownFile, ¬ y ∈ invalidChars := by decide
  by_cases h0 : s = []
  · rw [sanitize_filename, if_pos h0] at hx
    exact hunk x hx
  · simp only [sanitize_filename, if_neg h0] at hx
    by_cases h1 : pyStrip (removeInvalid s) = []
    · rw [if_pos h1] at hx
      exact hunk x hx
    · rw [if_neg h1] at hx
      by_cases h2 : 200 < (pyStrip (removeInvalid s)).length
      · rw [if_pos h2] at hx
        rcases List.mem_append.mp hx with hbit | hbit
        · refine mem_strip_removeInvalid s x ?_
          rw [← splitext_append (pyStrip (removeInvalid s))]
          exact List.mem_append.mpr (Or.inl (pySliceTo_subset _ _ x hbit))
        · refine mem_strip_removeInvalid s x ?_
          rw [← splitext_append (pyStrip (removeInvalid s))]
          exact List.mem_append.mpr (Or.inr hbit)
      · rw [if_neg h2] at hx
        exact mem_strip_removeInvalid s x hx

theorem sanitize_truncated_length (s : List Char)
    (h200 : 200 < (pyStrip (removeInvalid s)).length)
    (hext : (splitext (pyStrip (removeInvalid s))).2.length ≤ 200) :
    (sanitize_filename s).length = 200 := by
  have h0 : s ≠ [] := by
    intro e
    subst e
    have hz : (pyStrip (removeInvalid ([] : List Char))).length = 0 := rfl
    omega
  have h1 : pyStrip (removeInvalid s) ≠ [] := by
    intro e
    rw [e] at h200
    simp at h200
  have hres : sanitize_filename s
      = pySliceTo (splitext (pyStrip (removeInvalid s))).1
          ((200 : Int) - ((splitext (pyStrip (removeInvalid s))).2.length : Int))
        ++ (splitext (pyStrip (removeInvalid s))).2 := by
    simp only [sanitize_filename, if_neg h0, if_neg h1, if_pos h200]
  have hlen := splitext_length (pyStrip (removeInvalid s))
  rw [hres]
  have hk : ((200 : Int) - ((splitext (pyStrip (removeInvalid s))).2.length : Int)).toNat
      = 200 - (splitext (pyStrip (removeInvalid s))).2.length := by omega
  rw [pySliceTo, if_pos (by omega :
    (0 : Int) ≤ (200 : Int) - ((splitext (pyStrip (removeInvalid s))).2.length : Int))]
  rw [List.length_append, List.length_take, hk]
  omega

theorem pyStrip_idem (s : List Char) : pyStrip (pyStrip s) = pyStrip s := by
  have hform : ∀ l : List Char,
      pyStrip l = List.rdropWhile isDotOrSpace (l.dropWhile isDotOrSpace) := fun _ => rfl
  rw [hform, hform]
  have hdwt : List.dropWhile isDotOrSpace (s.dropWhile isDotOrSpace)
      = s.dropWhile isDotOrSpace := List.dropWhile_idempotent _ _
  have hpre : List.rdropWhile isDotOrSpace (s.dropWhile isDotOrSpace)
      <+: s.dropWhile isDotOrSpace := List.rdropWhile_prefix _ _
  have hdwu : List.dropWhile isDotOrSpace
      (List.rdropWhile isDotOrSpace (s.dropWhile isDotOrSpace))
      = List.rdropWhile isDotOrSpace (s.dropWhile isDotOrSpace) := by
    rw [List.dropWhile_eq_self_iff]
    intro hl
    have hl2 : 0 < (s.dropWhile isDotOrSpace).length := lt_of_lt_of_le hl hpre.length_le
    have hg := List.IsPrefix.getElem hpre hl
    have hh := (List.dropWhile_eq_self_iff.mp hdwt) hl2
    simpa [List.get_eq_getElem, hg] using hh
  rw [hdwu, List.rdropWhile_idempotent]

set_option maxRecDepth 40000 in
/-- Counterexample to claim C4 as stated: on the input `a.` + 300×`b`, whose
`splitext` extension is 301 characters long, the sanitizer returns a
301-character name — longer than the claimed 200-character bound (and not
exactly 200 despite the intermediate exceeding 200). -/
theorem sanitize_length_counterexample :
    (sanitize_filename longExtInput).length = 301 := by decide

/-- Claim C4 (amended): `sanitize` never contains a reserved character; and
whenever the extension `os.path.splitext` finds in the stripped intermediate
is at most 200 characters, the result is at most 200 characters — exactly 200
when the intermediate exceeded 200 (the stem is truncated preserving the
extension).  When the extension alone exceeds 200 characters, the slice
`name[:200-len(ext)]` cannot compensate and the result exceeds 200. -/
theorem sanitize_reserved_free_and_bounded (s : List Char) :
    (sanitize_filename s).all (fun c => !(decide (c ∈ invalidChars))) = true
      ∧ ((splitext (pyStrip (removeInvalid s))).2.length ≤ 200 →
          (sanitize_filename s).length ≤ 200)
      ∧ (200 < (pyStrip (removeInvalid s)).length →
          (splitext (pyStrip (removeInvalid s))).2.length ≤ 200 →
          (sanitize_filename s).length = 200) := by
  refine ⟨?_, ?_, fun h200 hext => sanitize_truncated_length s h200 hext⟩
  · rw [List.all_eq_true]
    intro c hc
    simpa using mem_sanitize_filename s c hc
  · intro hext
    by_cases h200 : 200 < (pyStrip (removeInvalid s)).length
    · have := sanitize_truncated_length s h200 hext
      omega
    · by_cases h0 : s = []
      · rw [h0]
        have hn : (sanitize_filename ([] : List Char)).length ≤ 200 := by decide
        exact hn
      · by_cases h1 : pyStrip (removeInvalid s) = []
        · have hs : sanitize_filename s = unknownFile := by
            simp only [sanitize_filename, if_neg h0, if_pos h1]
          rw [hs]
          decide
        · have hs : sanitize_filename s = pyStrip (removeInvalid s) := by
            simp only [sanitize_filename, if_neg h0, if_neg h1, if_neg h200]
          rw [hs]
          omega

set_option maxRecDepth 40000 in
/-- Witness for the amended C4: 201 `a`s followed by `.txt` keeps its
extension and is truncated to exactly 200 reserved-free characters. -/
theorem sanitize_reserved_free_and_bounded_witness :
    (200 < (pyStrip (removeInvalid longNameInput)).length
        ∧ (splitext (pyStrip (removeInvalid longNameInput))).2.length ≤ 200)
      ∧ ((sanitize_filename longNameInput).all
            (fun c => !(decide (c ∈ invalidChars))) = true
          ∧ (sanitize_filename longNameInput).length = 200) :=
  ⟨⟨by decide, by decide⟩,
    (sanitize_reserved_free_and_bounded longNameInput).1,
    (sanitize_reserved_free_and_bounded longNameInput).2.2 (by decide) (by decide)⟩

set_option maxRecDepth 40000 in
/-- Counterexample to claim C5 as stated: on 199×`a` + `" bb"` the first
sanitization truncates to 200 characters ending in a space, which the second
sanitization strips away — `sanitize` is not idempotent. -/
theorem sanitize_not_idempotent :
    sanitize_filename (sanitize_filename spaceCutInput)
      ≠ sanitize_filename spaceCutInput := by decide

/-- Claim C5 (amended): the sanitizer is idempotent on every input for which
no length truncation occurs, i.e. whose intermediate (after character
replacement and stripping) is at most 200 characters; truncation can expose a
trailing space or dot, or an over-long extension, that a second application
changes. -/
theorem sanitize_idempotent_no_truncation (s : List Char)
    (h : (pyStrip (removeInvalid s)).length ≤ 200) :
    sanitize_filename (sanitize_filename s) = sanitize_filename s := by
  have hufix : sanitize_filename unknownFile = unknownFile := by decide
  by_cases h0 : s = []
  · subst h0
    have hnil : sanitize_filename ([] : List Char) = unknownFile := rfl
    rw [hnil, hufix]
  · by_cases h1 : pyStrip (removeInvalid s) = []
    · have hs : sanitize_filename s = unknownFile := by
        simp only [sanitize_filename, if_neg h0, if_pos h1]
      rw [hs, hufix]
    · have h200 : ¬ 200 < (pyStrip (removeInvalid s)).length := by omega
      have hs : sanitize_filename s = pyStrip (removeInvalid s) := by
        simp only [sanitize_filename, if_neg h0, if_neg h1, if_neg h200]
      rw [hs]
      have hrem : removeInvalid (pyStrip (removeInvalid s)) = pyStrip (removeInvalid s) :=
        foldRep_eq_self invalidChars _ (mem_strip_removeInvalid s)
      have hinner : pyStrip (removeInvalid (pyStrip (removeInvalid s)))
          = pyStrip (removeInvalid s) := by
        rw [hrem]
        exact pyStrip_idem _
      simp only [sanitize_filename, hinner, if_neg h1, if_neg h200]

/-- Witness for the amended C5 on a short ordinary filename. -/
theorem sanitize_idempotent_no_truncation_witness :
    (pyStrip (removeInvalid ("a.txt".toList))).length ≤ 200
      ∧ sanitize_filename (sanitize_filename ("a.txt".toList))
          = sanitize_filename ("a.txt".toList) :=
  ⟨by decide, sanitize_idempotent_no_truncation ("a.txt".toList) (by decide)⟩

/-! ## Helper lemmas about the tree enumeration -/

theorem scanItemsT_docs (fail : List (List Char × List Char)) (dId lib : List Char) :
    (path : List Char) → (items : List Item) →
      (scanItemsT fail dId lib path items).2
        = collectFilesSpec dId lib path (pruneFailedSpec fail dId path items)
  | path, [] => by
      simp [scanItemsT, pruneFailedSpec, collectFilesSpec]
  | path, Item.file m :: rest => by
      have ih := scanItemsT_docs fail dId lib path rest
      simp [scanItemsT, pruneFailedSpec, collectFilesSpec, ih]
  | path, Item.folder nm sub :: rest => by
      have ih1 := scanItemsT_docs fail dId lib (joinPath path nm) sub
      have ih2 := scanItemsT_docs fail dId lib path rest
      by_cases hf : (dId, joinPath path nm) ∈ fail
      · simp [scanItemsT, pruneFailedSpec, collectFilesSpec, hf, ih2]
      · simp [scanItemsT, pruneFailedSpec, collectFilesSpec, hf, ih1, ih2]
termination_by path items => sizeOf items
decreasing_by
  all_goals simp_wf
  all_goals omega

theorem scanItemsT_no_sleep (fail : List (List Char × List Char)) (dId lib : List Char) :
    (path : List Char) → (items : List Item) →
      ∀ e ∈ (scanItemsT fail dId lib path items).1, isSleepEv e = false
  | path, [] => by
      simp [scanItemsT]
  | path, Item.file m :: rest => by
      have ih := scanItemsT_no_sleep fail dId lib path rest
      simpa [scanItemsT] using ih
  | path, Item.folder nm sub :: rest => by
      have ih1 := scanItemsT_no_sleep fail dId lib (joinPath path nm) sub
      have ih2 := scanItemsT_no_sleep fail dId lib path rest
      intro e he
      by_cases hf : (dId, joinPath path nm) ∈ fail
      · simp only [scanItemsT, if_pos hf] at he
        rcases List.mem_append.mp he with h | h
        · rcases List.mem_singleton.mp h with rfl
          rfl
        · exact ih2 e h
      · simp only [scanItemsT, if_neg hf, List.cons_append] at he
        rcases List.mem_cons.mp he with rfl | h
        · rfl
        · rcases List.mem_append.mp h with h2 | h2
          · exact ih1 e h2
          · exact ih2 e h2
termination_by path items => sizeOf items
decreasing_by
  all_goals simp_wf
  all_goals omega

theorem scanCallT_docs (fail : List (List Char × List Char)) (d : Drive) :
    (scanCallT fail d.id d.name [] d.root).2 = enumerateDriveSpec fail d := by
  by_cases hf : (d.id, ([] : List Char)) ∈ fail
  · simp [scanCallT, enumerateDriveSpec, hf]
  · simp [scanCallT, enumerateDriveSpec, hf, scanItemsT_docs]

theorem scanCallT_no_sleep (fail : List (List Char × List Char)) (dId lib path : List Char)
    (children : List Item) (e : Ev) (he : e ∈ (scanCallT fail dId lib path children).1) :
    isSleepEv e = false := by
  by_cases hf : (dId, path) ∈ fail
  · simp only [scanCallT, if_pos hf, List.mem_singleton] at he
    subst he
    rfl
  · simp only [scanCallT, if_neg hf] at he
    rcases List.mem_cons.mp he with rfl | h
    · rfl
    · exact scanItemsT_no_sleep fail dId lib path children e h

theorem mem_foldr_append {α β : Type} (f : β → List α) (l : List β) (e : α) :
    e ∈ (l.map f).foldr (fun a b => a ++ b) [] ↔ ∃ x, x ∈ l ∧ e ∈ f x := by
  induction l with
  | nil => simp
  | cons b l ih => simp [ih]

/-! ## Helper lemmas about the batch orchestrator -/

theorem dictInsert_mem_keys (m : List (List Char × List Char)) (k v q : List Char) :
    (∃ w, (q, w) ∈ dictInsert m k v) ↔ (q = k ∨ ∃ w, (q, w) ∈ m) := by
  unfold dictInsert
  by_cases hk : k ∈ m.map (fun p => p.1)
  · rw [if_pos hk]
    constructor
    · rintro ⟨w, hw⟩
      rcases List.mem_map.mp hw with ⟨p, hp, hfp⟩
      by_cases hpk : p.1 = k
      · rw [if_pos hpk] at hfp
        exact Or.inl (congrArg Prod.fst hfp).symm
      · rw [if_neg hpk] at hfp
        exact Or.inr ⟨w, hfp ▸ hp⟩
    · rintro (rfl | ⟨w, hw⟩)
      · rcases List.mem_map.mp hk with ⟨p, hp, hpk⟩
        exact ⟨v, List.mem_map.mpr ⟨p, hp, by rw [if_pos hpk]⟩⟩
      · by_cases hqk : q = k
        · subst hqk
          rcases List.mem_map.mp hk with ⟨p, hp, hpk⟩
          exact ⟨v, List.mem_map.mpr ⟨p, hp, by rw [if_pos hpk]⟩⟩
        · refine ⟨w, List.mem_map.mpr ⟨(q, w), hw, ?_⟩⟩
          rw [if_neg hqk]
  · rw [if_neg hk]
    constructor
    · rintro ⟨w, hw⟩
      rcases List.mem_append.mp hw with h | h
      · exact Or.inr ⟨w, h⟩
      · rcases List.mem_singleton.mp h with h2
        exact Or.inl (congrArg Prod.fst h2)
    · rintro (rfl | ⟨w, hw⟩)
      · exact ⟨v, List.mem_append.mpr (Or.inr (List.mem_singleton.mpr rfl))⟩
      · exact ⟨w, List.mem_append.mpr (Or.inl hw)⟩

theorem bulkGo_calls (dl : Doc → Option (List Char)) (total : Nat) :
    (ds : List Doc) → (i : Nat) → (m : List (List Char × List Char)) →
      (bulkGo dl total ds i m).2 = (List.range ds.length).map (fun j => (i + 1 + j, total))
  | [], i, m => by simp [bulkGo]
  | d :: rest, i, m => by
      simp only [bulkGo, List.length_cons]
      rw [bulkGo_calls dl total rest (i + 1) _]
      rw [List.range_succ_eq_map, List.map_cons, List.map_map]
      refine congrArg₂ List.cons (by simp) ?_
      refine List.map_congr_left ?_
      intro j _
      simp only [Function.comp_apply, Nat.succ_eq_add_one, Prod.mk.injEq]
      exact ⟨by omega, trivial⟩

theorem bulkGo_mem_keys (dl : Doc → Option (List Char)) (total : Nat) :
    (ds : List Doc) → (i : Nat) → (m : List (List Char × List Char)) → (q : List Char) →
      ((∃ w, (q, w) ∈ (bulkGo dl total ds i m).1)
        ↔ ((∃ w, (q, w) ∈ m) ∨ ∃ d, d ∈ ds ∧ d.name = q ∧ (dl d).isSome = true))
  | [], i, m, q => by simp [bulkGo]
  | d :: rest, i, m, q => by
      simp only [bulkGo]
      cases hdl : dl d with
      | none =>
          rw [bulkGo_mem_keys dl total rest (i + 1) m q]
          constructor
          · rintro (h | ⟨d2, hd2, hn, hs⟩)
            · exact Or.inl h
            · exact Or.inr ⟨d2, List.mem_cons_of_mem d hd2, hn, hs⟩
          · rintro (h | ⟨d2, hd2, hn, hs⟩)
            · exact Or.inl h
            · rcases List.mem_cons.mp hd2 with rfl | hd3
              · rw [hdl] at hs
                simp at hs
              · exact Or.inr ⟨d2, hd3, hn, hs⟩
      | some p =>
          rw [bulkGo_mem_keys dl total rest (i + 1) (dictInsert m d.name p) q,
            dictInsert_mem_keys m d.name p q]
          constructor
          · rintro ((rfl | h) | ⟨d2, hd2, hn, hs⟩)
            · exact Or.inr ⟨d, List.mem_cons_self d rest, rfl, by simp [hdl]⟩
            · exact Or.inl h
            · exact Or.inr ⟨d2, List.mem_cons_of_mem d hd2, hn, hs⟩
          · rintro (h | ⟨d2, hd2, hn, hs⟩)
            · exact Or.inl (Or.inr h)
            · rcases List.mem_cons.mp hd2 with rfl | hd3
              · exact Or.inl (Or.inl hn.symm)
              · exact Or.inr ⟨d2, hd3, hn, hs⟩

/-- Counterexample to claim C2 as stated: a drive whose root contains a folder
named `Forms` with one file inside.  The enumerator recurses into `Forms`
(there is no skip rule in `_scan_drive_recursive`) and the returned collection
contains the descriptor of the file inside it, with `path = "Forms"`. -/
theorem forms_folder_is_scanned :
    (scanCallT [] ("d1".toList) ("Documents".toList) [] formsDrive.root).2
        = [mkDoc ("d1".toList) ("Documents".toList) ("Forms".toList) sampleMeta]
      ∧ (mkDoc ("d1".toList) ("Documents".toList) ("Forms".toList) sampleMeta).path
          = "Forms".toList := by
  constructor
  · simp [scanCallT, scanItemsT, formsDrive, joinPath]
  · rfl

/-- Claim C2 (amended): during tree enumeration the enumerator recurses into
every folder regardless of its name — in particular into folders whose name
starts with `_` or equals `Forms` — exactly as into any other folder, so files
inside such folders do appear in the returned collection. -/
theorem scan_recurses_into_reserved_folders (fail : List (List Char × List Char))
    (dId lib path nm : List Char) (sub rest : List Item)
    (hres : reservedFolderName nm = true)
    (hok : ¬ (dId, joinPath path nm) ∈ fail) :
    scanItemsT fail dId lib path (Item.folder nm sub :: rest)
      = (Ev.listChildren dId (joinPath path nm)
            :: ((scanItemsT fail dId lib (joinPath path nm) sub).1
              ++ (scanItemsT fail dId lib path rest).1),
         (scanItemsT fail dId lib (joinPath path nm) sub).2
            ++ (scanItemsT fail dId lib path rest).2) := by
  simp [scanItemsT, hok]

/-- Witness for the amended C2: the enumerator recurses into a `Forms` folder. -/
theorem scan_recurses_into_reserved_folders_witness :
    reservedFolderName ("Forms".toList) = true
      ∧ ¬ (("d1".toList, joinPath [] ("Forms".toList))
            ∈ ([] : List (List Char × List Char)))
      ∧ scanItemsT [] ("d1".toList) ("Documents".toList) []
            [Item.folder ("Forms".toList) [Item.file sampleMeta]]
          = (Ev.listChildren ("d1".toList) (joinPath [] ("Forms".toList))
                :: ((scanItemsT [] ("d1".toList) ("Documents".toList)
                      (joinPath [] ("Forms".toList)) [Item.file sampleMeta]).1
                  ++ (scanItemsT [] ("d1".toList) ("Documents".toList) [] []).1),
             (scanItemsT [] ("d1".toList) ("Documents".toList)
                  (joinPath [] ("Forms".toList)) [Item.file sampleMeta]).2
                ++ (scanItemsT [] ("d1".toList) ("Documents".toList) [] []).2) :=
  ⟨by decide, by simp,
    scan_recurses_into_reserved_folders [] ("d1".toList) ("Documents".toList) []
      ("Forms".toList) [Item.file sampleMeta] [] (by decide) (by simp)⟩

/-- Counterexample to claim C3 as stated: when the drives listing answers 500,
`get_documents` does not return the (empty) accumulated collection — it
raises (`APIError` rewrapped as `SharePointError`), modelled as an error
result carrying the failing status. -/
theorem drives_failure_raises_not_returns :
    get_documents 500 [] [] = Except.error 500
      ∧ get_documents 500 [] [] ≠ Except.ok [] :=
  ⟨rfl, fun h => Except.noConfusion h⟩

/-- Claim C3 (amended): a non-200 while listing one folder's children abandons
only that subtree — the enumeration result equals the spec-side collection of
every file of the failure-pruned tree, so siblings are still processed —
whereas a non-200 while listing the drives is fatal to the whole call, which
raises `SharePointError` (an error result) rather than returning the
accumulated (empty) collection. -/
theorem get_documents_failure_semantics (drivesStatus : Nat) (drives : List Drive)
    (fail : List (List Char × List Char)) :
    (drivesStatus ≠ 200 → get_documents drivesStatus drives fail = Except.error drivesStatus)
      ∧ get_documents 200 drives fail
          = Except.ok ((drives.map (enumerateDriveSpec fail)).foldr (fun a b => a ++ b) []) := by
  constructor
  · intro h
    simp [get_documents, get_documentsT, h]
  · simp only [get_documents, get_documentsT, if_pos rfl, List.map_map]
    refine congrArg Except.ok (congrArg (fun l => List.foldr (fun a b => a ++ b) [] l) ?_)
    refine List.map_congr_left ?_
    intro d _
    exact scanCallT_docs fail d

/-- Witness for the amended C3 at a 500 drives listing. -/
theorem get_documents_failure_semantics_witness :
    (500 : Nat) ≠ 200 ∧ get_documents 500 [twoFoldersDrive] [] = Except.error 500 :=
  ⟨by decide, (get_documents_failure_semantics 500 [twoFoldersDrive] []).1 (by decide)⟩

/-- Counterexample to claim C8 as stated: enumerating a drive with two folders
performs three children-listing calls and the drives call, with zero sleep
steps anywhere in the operation sequence — no pacing delay is ever applied. -/
theorem enumeration_trace_has_no_delay :
    2 ≤ (get_documentsT 200 [twoFoldersDrive] []).1.countP isChildrenListEv
      ∧ (get_documentsT 200 [twoFoldersDrive] []).1.countP isSleepEv = 0 := by
  have htr : (get_documentsT 200 [twoFoldersDrive] []).1
      = [Ev.listDrives,
         Ev.listChildren ("d1".toList) [],
         Ev.listChildren ("d1".toList) ("A".toList),
         Ev.listChildren ("d1".toList) ("B".toList)] := by
    simp [get_documentsT, scanCallT, scanItemsT, twoFoldersDrive, joinPath]
  rw [htr]
  constructor
  · decide
  · decide

/-- Claim C8 (amended): no pacing delay occurs during tree enumeration — for
every server state, the sequence of operations performed by `get_documents`
contains no sleep step at all, neither between folder listing calls nor
between drive scans. -/
theorem enumeration_never_sleeps (drivesStatus : Nat) (drives : List Drive)
    (fail : List (List Char × List Char)) :
    (get_documentsT drivesStatus drives fail).1.countP isSleepEv = 0 := by
  rw [List.countP_eq_zero]
  intro e he
  by_cases h200 : drivesStatus = 200
  · subst h200
    simp only [get_documentsT, if_pos rfl] at he
    rcases List.mem_cons.mp he with rfl | h
    · simp [isSleepEv]
    · rw [List.map_map] at h
      rcases (mem_foldr_append _ drives e).mp h with ⟨d, _, hd⟩
      simp only [Function.comp_apply] at hd
      simp [scanCallT_no_sleep fail d.id d.name [] d.root e hd]
  · simp only [get_documentsT, if_neg h200, List.mem_singleton] at he
    subst he
    simp [isSleepEv]

/-- Claim C6: for a descriptor list of length N, the progress callback is
invoked exactly N times with `(1, N), (2, N), …, (N, N)` — strictly increasing
completed counts ending at N — and a name is a key of the returned mapping
exactly when some descriptor with that name downloaded successfully: failing
documents are absent and do not abort the batch. -/
theorem bulk_download_results_and_progress (dl : Doc → Option (List Char))
    (docs : List Doc) :
    (bulk_download dl docs).2
        = (List.range docs.length).map (fun j => (j + 1, docs.length))
      ∧ ∀ q, (∃ w, (q, w) ∈ (bulk_download dl docs).1)
          ↔ ∃ d, d ∈ docs ∧ d.name = q ∧ (dl d).isSome = true := by
  constructor
  · rw [bulk_download, bulkGo_calls]
    refine List.map_congr_left ?_
    intro j _
    simp only [Prod.mk.injEq]
    exact ⟨by omega, trivial⟩
  · intro q
    rw [bulk_download, bulkGo_mem_keys]
    simp

/-- Claim C7: saving a descriptor list to the metadata snapshot and loading it
back yields the same list field-for-field: the loader finds the `documents`
key of the object the saver wrote and returns its array unchanged. -/
theorem metadata_roundtrip (timestamp : List Char) (documents : List JVal)
    (hne : documents ≠ []) :
    load_documents_metadata (some (save_documents_metadata timestamp documents))
      = JVal.arr documents := rfl

/-- Witness for C7 at a concrete one-element snapshot. -/
theorem metadata_roundtrip_witness :
    ([JVal.num 1] : List JVal) ≠ []
      ∧ load_documents_metadata (some (save_documents_metadata ("t".toList) [JVal.num 1]))
          = JVal.arr [JVal.num 1] :=
  ⟨List.cons_ne_nil _ _, metadata_roundtrip ("t".toList) [JVal.num 1] (List.cons_ne_nil _ _)⟩

/-- Claim C10: loading the metadata snapshot never propagates an error — on a
missing/unreadable/unparsable file, on an object without a `documents` key,
and on JSON that is neither such an object nor a bare array, the loader
returns the empty list. -/
theorem load_metadata_bad_input_empty (j : Option JVal)
    (h : isBadMetaInput j = true) :
    load_documents_metadata j = JVal.arr [] := by
  match j with
  | none => rfl
  | some JVal.null => rfl
  | some (JVal.bool b) => rfl
  | some (JVal.num n) => rfl
  | some (JVal.str s) => rfl
  | some (JVal.arr xs) => simp [isBadMetaInput] at h
  | some (JVal.obj fields) =>
      simp only [isBadMetaInput, Option.isNone_iff_eq_none] at h
      simp [load_documents_metadata, h]

/-- Witness for C10 at a concrete non-object, non-array JSON value. -/
theorem load_metadata_bad_input_empty_witness :
    isBadMetaInput (some (JVal.num 7)) = true
      ∧ load_documents_metadata (some (JVal.num 7)) = JVal.arr [] :=
  ⟨rfl, load_metadata_bad_input_empty (some (JVal.num 7)) rfl⟩

/-- Counterexample to claim C9 as stated: two token-endpoint replies that
differ in both status code (418 vs 500) and response body produce the very
same failure value, the fixed-message `AuthenticationError`; the raised error
therefore carries neither the status code nor the response body. -/
theorem auth_error_ignores_status_and_body :
    authenticate_token_step { status := 418, body := some (JVal.str ("A".toList)) }
        = Except.error authExchangeFailedMsg
      ∧ authenticate_token_step { status := 500, body := some (JVal.str ("B".toList)) }
          = Except.error authExchangeFailedMsg
      ∧ (418 : Nat) ≠ 500 := ⟨rfl, rfl, by decide⟩

/-- Claim C9 (amended): on any non-200 token-endpoint status, the exchange
helper returns failure (logging the status and body only) and `authenticate`
raises an `AuthenticationError` with the fixed message
"Failed to exchange authorization code for token", independent of the status
code and body. -/
theorem auth_non200_fixed_error (resp : HttpResp) (h : resp.status ≠ 200) :
    authenticate_token_step resp = Except.error authExchangeFailedMsg := by
  simp [authenticate_token_step, exchange_code_for_token, h]

/-- Witness for the amended C9 at a concrete 500 reply. -/
theorem auth_non200_fixed_error_witness :
    (500 : Nat) ≠ 200
      ∧ authenticate_token_step { status := 500, body := some (JVal.str ("oops".toList)) }
          = Except.error authExchangeFailedMsg :=
  ⟨by decide, auth_non200_fixed_error { status := 500, body := some (JVal.str ("oops".toList)) }
    (by decide)⟩

/-- Counterexample to claim C1 as stated: against a server answering 500, 500,
then 200, the download does NOT succeed on the 3rd attempt — the first 500
raises `DownloadError`, which escapes the retry loop (it is not a
`requests.RequestException`), so the download fails after exactly one GET. -/
theorem download_500_fails_first_attempt :
    download_document respFiveHundredTwiceThenOk = ([Ev.httpGet], false) := by decide

/-- Claim C1 (amended): the download's 3-attempt exponential-backoff retry
(sleeping 1s then 2s) applies only to network-level request exceptions; any
non-200 HTTP status — 401/403/404 but equally 500 — aborts after that single
attempt with no retry, because the raised `DownloadError` is caught outside
the loop and the operation returns failure.  In particular always-403 fails
after exactly one attempt, and three network errors exhaust the retries. -/
theorem download_retry_semantics (resp : Nat → Outcome) (s : Nat) :
    (resp 0 = Outcome.status s → s ≠ 200 →
        download_document resp = ([Ev.httpGet], false))
      ∧ (resp 0 = Outcome.netErr → resp 1 = Outcome.netErr → resp 2 = Outcome.status 200 →
          download_document resp
            = ([Ev.httpGet, Ev.sleep 1, Ev.httpGet, Ev.sleep 2, Ev.httpGet], true))
      ∧ (resp 0 = Outcome.netErr → resp 1 = Outcome.netErr → resp 2 = Outcome.netErr →
          download_document resp
            = ([Ev.httpGet, Ev.sleep 1, Ev.httpGet, Ev.sleep 2, Ev.httpGet], false)) := by
  refine ⟨fun h0 hs => ?_, fun h0 h1 h2 => ?_, fun h0 h1 h2 => ?_⟩
  · simp [download_document, downloadGo, h0, hs]
  · simp [download_document, downloadGo, h0, h1, h2]
  · simp [download_document, downloadGo, h0, h1, h2]

/-- Witness for the amended C1: an always-403 server fails after one attempt;
two network errors then a 200 succeed on the third attempt after sleeping 1s
and 2s; three network errors exhaust the retries. -/
theorem download_retry_semantics_witness :
    ((fun _ : Nat => Outcome.status 403) 0 = Outcome.status 403 ∧ (403 : Nat) ≠ 200
        ∧ download_document (fun _ => Outcome.status 403) = ([Ev.httpGet], false))
      ∧ download_document (fun n => if n < 2 then Outcome.netErr else Outcome.status 200)
          = ([Ev.httpGet, Ev.sleep 1, Ev.httpGet, Ev.sleep 2, Ev.httpGet], true)
      ∧ download_document (fun _ => Outcome.netErr)
          = ([Ev.httpGet, Ev.sleep 1, Ev.httpGet, Ev.sleep 2, Ev.httpGet], false) :=
  ⟨⟨rfl, by decide,
      (download_retry_semantics (fun _ => Outcome.status 403) 403).1 rfl (by decide)⟩,
    (download_retry_semantics (fun n => if n < 2 then Outcome.netErr else Outcome.status 200) 0).2.1
      rfl rfl rfl,
    (download_retry_semantics (fun _ => Outcome.netErr) 0).2.2 rfl rfl rfl⟩

end SPC
